/-
Verification of the LAN Lords server core (server.py, protocol.py, config.py)
against its natural-language specification.

The Python source is shallowly embedded: Python floats are modelled as
exact rationals (ℚ) — every property checked here is an order/clamping
property that is arithmetic-rounding-agnostic, and the concrete traces
used in witnesses involve only dyadic values that binary floating point
represents exactly.  Python ints are ℤ/ℕ.  `json.loads` of a line is
modelled as an `Option Json` (`none` = the line is not valid JSON);
`json.dumps`/`json.loads` round-tripping on serializable data is the
identity on `Json` trees.  Socket I/O and the printing in the
source are omitted: only state-mutating logic is embedded.
-/
import Mathlib

namespace LanLords

/-! ## protocol.py -/

/-- The `Direction` enum from protocol.py. -/
inductive Direction where
  | up | down | left | right | none
deriving DecidableEq, Repr

/-- The `ActionType` enum from protocol.py. -/
inductive ActionType where
  | move | stop | attack | none
deriving DecidableEq, Repr

/-- The `MessageType` enum from protocol.py. -/
inductive MessageType where
  | connect | disconnect | player_input | game_state | chat_message
  | player_joined | player_left | attack | attack_result | damage
  | request_state
deriving DecidableEq, Repr

/-- The string `value` of each `MessageType` enum member. -/
def MessageType.value : MessageType → String
  | .connect => "connect"
  | .disconnect => "disconnect"
  | .player_input => "player_input"
  | .game_state => "game_state"
  | .chat_message => "chat_message"
  | .player_joined => "player_joined"
  | .player_left => "player_left"
  | .attack => "attack"
  | .attack_result => "attack_result"
  | .damage => "damage"
  | .request_state => "request_state"

/-- Python `MessageType(v)`: look a member up by its string value;
`Option.none` models the `ValueError` raised for an unknown value. -/
def MessageType.ofValue : String → Option MessageType
  | "connect" => some .connect
  | "disconnect" => some .disconnect
  | "player_input" => some .player_input
  | "game_state" => some .game_state
  | "chat_message" => some .chat_message
  | "player_joined" => some .player_joined
  | "player_left" => some .player_left
  | "attack" => some .attack
  | "attack_result" => some .attack_result
  | "damage" => some .damage
  | "request_state" => some .request_state
  | _ => Option.none

/-- A JSON value, as produced by `json.loads`. -/
inductive Json where
  | null
  | bool (b : Bool)
  | num (q : ℚ)
  | str (s : String)
  | arr (elems : List Json)
  | obj (fields : List (String × Json))

/-- Python `obj[k]` on a parsed JSON value: the first field named `k` of a
JSON object.  `Option.none` models the `KeyError` (or, on a non-object, the
`TypeError`) the subscript raises. -/
def Json.get : Json → String → Option Json
  | .obj fields, k => fields.lookup k
  | _, _ => Option.none

/-- The `Message` wrapper from protocol.py: a type tag plus a JSON payload. -/
structure Message where
  type : MessageType
  data : Json

/-- Embeds `Message.to_json`, at the JSON-tree level: `json.dumps` of
`{"type": self.type.value, "data": self.data}`. -/
def Message.to_json (m : Message) : Json :=
  .obj [("type", .str m.type.value), ("data", m.data)]

/-- Embeds `Message.from_json`.  The argument is the result of `json.loads` on the
line (`Option.none` = invalid JSON, raising `json.JSONDecodeError`).  The
Python body looks up `obj["type"]`, converts it with `MessageType(...)`,
looks up `obj["data"]` and builds the `Message`; every failure along the
way raises (a `ValueError`, directly or re-wrapped), modelled as
`Except.error`. -/
def Message.from_json (parsed : Option Json) : Except String Message :=
  match parsed with
  | Option.none => .error "Invalid message format: not valid JSON"
  | some obj =>
    match obj.get "type" with
    | Option.none => .error "Invalid message format: KeyError type"
    | some tv =>
      match tv with
      | .str s =>
        match MessageType.ofValue s with
        | Option.none => .error "not a valid MessageType"
        | some t =>
          match obj.get "data" with
          | Option.none => .error "Invalid message format: KeyError data"
          | some d => .ok { type := t, data := d }
      | _ => .error "not a valid MessageType"

/-- Whether a decode attempt raised. -/
def decodeFails (parsed : Option Json) : Bool :=
  match Message.from_json parsed with
  | .error _ => true
  | .ok _ => false

/-- The `type` value of a line, when it is valid JSON, carries a `type`
field and that field holds a recognized enum value. -/
def recognizedType (parsed : Option Json) : Option MessageType :=
  match parsed with
  | Option.none => Option.none
  | some obj =>
    match obj.get "type" with
    | some (.str s) => MessageType.ofValue s
    | _ => Option.none

/-- Whether a line is valid JSON carrying a `data` field. -/
def hasDataField (parsed : Option Json) : Bool :=
  match parsed with
  | Option.none => false
  | some obj => (obj.get "data").isSome

/-- The per-connection message loop of `GameServer.handle_client`
(server.py lines 282-292), restricted to decoding: each buffered line is
decoded, a line that raises is logged and skipped (`continue`), and
processing moves on to the remaining lines. -/
def processLines (lines : List (Option Json)) : List Message :=
  lines.filterMap (fun l => (Message.from_json l).toOption)

/-! ## config.py -/

def MAX_PLAYERS : ℕ := 4
def ARENA_WIDTH : ℚ := 800
def ARENA_HEIGHT : ℚ := 600
def PLAYER_SPEED : ℚ := 5
def PLAYER_MAX_HEALTH : ℤ := 100
def PLAYER_ATTACK_DAMAGE : ℤ := 10
def PLAYER_ATTACK_RANGE : ℚ := 60
def PLAYER_ATTACK_COOLDOWN : ℚ := 3 / 10
def MAX_CHAT_HISTORY : ℕ := 50

/-! ## server.py : Player -/

/-- The `Player` dataclass (socket fields omitted); defaults as in the
source. -/
structure Player where
  id : ℕ
  name : String
  x : ℚ
  y : ℚ
  vx : ℚ := 0
  vy : ℚ := 0
  health : ℤ := PLAYER_MAX_HEALTH
  direction : Direction := .none
  is_jumping : Bool := false
  can_double_jump : Bool := false
  is_crouching : Bool := false
  is_grounded : Bool := false
  last_attack_time : ℚ := 0
deriving DecidableEq, Repr

def Player.is_alive (p : Player) : Bool :=
  decide (p.health > 0)

def Player.can_attack (p : Player) (current_time : ℚ) : Bool :=
  decide (current_time - p.last_attack_time ≥ PLAYER_ATTACK_COOLDOWN)

/-- Method `Player.attack`: record the time of this attack. -/
def Player.attack (p : Player) (current_time : ℚ) : Player :=
  { p with last_attack_time := current_time }

/-- A platform rectangle; the source stores these as `(x, y, width, height)`
tuples. -/
structure Platform where
  x : ℚ
  y : ℚ
  w : ℚ
  h : ℚ
deriving DecidableEq, Repr

/-- One iteration of the platform-collision loop in
`Player.update_physics`.  `pb`, `pt`, `pl`, `pr` are the player bounds as
computed once before the loop in the source (they are NOT recomputed after
a collision mutates `self.x`/`self.y`, while the velocity tests read the
current `self.vy`/`self.vx`). -/
def Player.collidePlatform (pb pt pl pr : ℚ) (q : Player) (plat : Platform) : Player :=
  -- Landing on top
  let q :=
    if pb ≥ plat.y ∧ q.vy > 0 then
      if pl < plat.x + plat.w ∧ pr > plat.x then
        if pt < plat.y then
          { q with y := plat.y - 40, vy := 0, is_grounded := true,
                   is_jumping := false, can_double_jump := true }
        else q
      else q
    else q
  -- Side collisions
  if pb > plat.y ∧ pt < plat.y + plat.h then
    let q :=
      if pr > plat.x ∧ q.vx > 0 ∧ pl < plat.x then
        { q with x := plat.x - 40, vx := 0 }
      else q
    if pl < plat.x + plat.w ∧ q.vx < 0 ∧ pr > plat.x + plat.w then
      { q with x := plat.x + plat.w, vx := 0 }
    else q
  else q

/-- Method `Player.update_physics`: gravity (GRAVITY = 0.5, MAX_FALL_SPEED = 12),
position integration, horizontal friction (×0.85, snapped to 0 below 0.1),
the platform-collision loop, the arena-bounds clamp and the arena-floor
fallback, in source order. -/
def Player.update_physics (p : Player) (platforms : List Platform) : Player :=
  -- Apply gravity
  let p :=
    if !p.is_grounded then
      let vy := p.vy + 1/2
      let vy := if vy > 12 then (12 : ℚ) else vy
      { p with vy := vy }
    else p
  -- Update position
  let p := { p with x := p.x + p.vx, y := p.y + p.vy }
  -- Horizontal friction
  let p := { p with vx := p.vx * (85/100) }
  let p := if |p.vx| < 1/10 then { p with vx := 0 } else p
  -- Check platform collisions
  let p := { p with is_grounded := false }
  let pb := p.y + 40
  let pt := p.y
  let pl := p.x
  let pr := p.x + 40
  let p := platforms.foldl (Player.collidePlatform pb pt pl pr) p
  -- Arena bounds
  let p := { p with x := max 0 (min (ARENA_WIDTH - 40) p.x),
                    y := max 0 (min (ARENA_HEIGHT - 40) p.y) }
  if p.y ≥ ARENA_HEIGHT - 40 then
    { p with y := ARENA_HEIGHT - 40, vy := 0, is_grounded := true,
             is_jumping := false, can_double_jump := true }
  else p

/-- Method `Player.move`: update movement state from one input.  The direction
field is set unconditionally; the jump branch fires when grounded; the
second-jump branch fires when `not self.is_jumping and self.can_double_jump`. -/
def Player.move (p : Player) (action : ActionType) (direction : Direction) : Player :=
  let p := { p with direction := direction }
  if action = ActionType.move then
    match direction with
    | .left => { p with vx := -PLAYER_SPEED * (8/10) }
    | .right => { p with vx := PLAYER_SPEED * (8/10) }
    | .up =>
      if p.is_grounded then
        { p with vy := -13, is_jumping := true, can_double_jump := true }
      else if !p.is_jumping && p.can_double_jump then
        { p with vy := -13, is_jumping := true, can_double_jump := false }
      else p
    | .down => { p with is_crouching := true }
    | .none => p
  else p

/-! ## server.py : GameServer state and handlers -/

/-- One chat history entry, as the dict appended by `add_chat_message`. -/
structure ChatMsg where
  text : String
  is_system : Bool
  timestamp : ℚ
deriving DecidableEq, Repr

/-- The four static platforms built in `GameServer.__init__`. -/
def serverPlatforms : List Platform :=
  [⟨80, ARENA_HEIGHT - 80, ARENA_WIDTH - 160, 20⟩,
   ⟨120, ARENA_HEIGHT - 220, 180, 18⟩,
   ⟨ARENA_WIDTH - 300, ARENA_HEIGHT - 220, 180, 18⟩,
   ⟨ARENA_WIDTH / 2 - 120, 120, 240, 16⟩]

/-- The mutable server state: the id → Player registry (a Python dict in
insertion order, modelled as a list), the next-id counter and the chat
history. -/
structure GameState where
  players : List Player := []
  next_player_id : ℕ := 1
  chat_history : List ChatMsg := []
deriving DecidableEq, Repr

/-- Method `GameServer.add_chat_message`: append a timestamped entry, then trim to
the most recent 100 entries (`self.chat_history[-100:]`) when the length
exceeds the hard-coded 100.  Note the source uses the literal 100 here,
not `config.MAX_CHAT_HISTORY`. -/
def GameState.add_chat_message (s : GameState) (text : String) (is_system : Bool)
    (now : ℚ) : GameState :=
  let ch := s.chat_history ++ [⟨text, is_system, now⟩]
  let ch := if ch.length > 100 then ch.drop (ch.length - 100) else ch
  { s with chat_history := ch }

/-- The chat slice `self.chat_history[-10:]` included in every
`get_game_state` snapshot (and in the snapshot built inside `add_player`). -/
def chatTail (ch : List ChatMsg) : List ChatMsg :=
  ch.drop (ch.length - 10)

/-- The fixed spawn table of `GameServer.add_player`. -/
def spawn_positions : List (ℚ × ℚ) :=
  [(100, 100), (700, 100), (100, 500), (700, 500)]

/-- Method `GameServer.add_player` (state part; the PLAYER_JOINED / initial
game-state sends are I/O and omitted): reject when the registry already
holds `MAX_PLAYERS` entries, otherwise assign the next id, pick the spawn
point `(id - 1) mod 4`, build the `Player` and insert it. -/
def GameState.add_player (s : GameState) (name : String) : Option ℕ × GameState :=
  if s.players.length ≥ MAX_PLAYERS then
    (Option.none, s)
  else
    let player_id := s.next_player_id
    let spawn_idx := (player_id - 1) % spawn_positions.length
    let pos := spawn_positions.getD spawn_idx (0, 0)
    let player : Player :=
      { id := player_id, name := name, x := pos.1, y := pos.2,
        health := PLAYER_MAX_HEALTH, direction := .none }
    (some player_id,
     { s with next_player_id := player_id + 1,
              players := s.players ++ [player] })

/-- Method `GameServer.remove_player` (the PLAYER_LEFT broadcast is I/O and
omitted): drop the entry if present; a no-op otherwise. -/
def GameState.remove_player (s : GameState) (pid : ℕ) : GameState :=
  { s with players := s.players.filter (fun p => p.id ≠ pid) }

/-- Method `GameServer.handle_player_input`: locate the player (an absent id is a
silent no-op), call `move` when the action is MOVE, then clear the crouch
flag whenever the direction is not DOWN. -/
def GameState.handle_player_input (s : GameState) (pid : ℕ) (action : ActionType)
    (direction : Direction) : GameState :=
  { s with players := s.players.map (fun p =>
      if p.id = pid then
        let p := if action = ActionType.move then p.move action direction else p
        if direction ≠ Direction.down then { p with is_crouching := false } else p
      else p) }

/-- Method `GameServer.get_attack_position`: the attack point, a fixed offset from
the attacker's top-left position per direction; any direction other than
the four axes (i.e. NONE) takes the final `else` offset `(x+20, y+20)`. -/
def get_attack_position (p : Player) (direction : Direction) : ℚ × ℚ :=
  match direction with
  | .up => (p.x + 20, p.y - 30)
  | .down => (p.x + 20, p.y + 70)
  | .left => (p.x - 30, p.y + 20)
  | .right => (p.x + 70, p.y + 20)
  | .none => (p.x + 20, p.y + 20)

/-- The two damage statements of `handle_attack` on a hit defender:
`other_player.health -= PLAYER_ATTACK_DAMAGE` followed by
`other_player.health = max(0, other_player.health)`. -/
def Player.damaged (q : Player) : Player :=
  { q with health := max 0 (q.health - PLAYER_ATTACK_DAMAGE) }

/-- The hit test of `handle_attack`: Euclidean distance from the attack
point to the defender's position is at most `PLAYER_ATTACK_RANGE`.  The
source computes `(dx*dx + dy*dy) ** 0.5 <= PLAYER_ATTACK_RANGE`; with both
sides nonnegative this is equivalent to comparing the squares, which keeps
the embedding inside ℚ. -/
def inAttackRange (ap : ℚ × ℚ) (q : Player) : Bool :=
  decide ((q.x - ap.1) * (q.x - ap.1) + (q.y - ap.2) * (q.y - ap.2)
            ≤ PLAYER_ATTACK_RANGE * PLAYER_ATTACK_RANGE)

/-- Method `GameServer.handle_attack`: silent no-op on an unknown id; rejected
with no state change while on cooldown; otherwise stamp the attacker's
`last_attack_time`, compute the attack point, damage every other living
player within range (health floored at zero) and append one system chat
line per hit, in registry iteration order. -/
def GameState.handle_attack (s : GameState) (pid : ℕ) (direction : Direction)
    (now : ℚ) : GameState :=
  match s.players.find? (fun p => p.id == pid) with
  | Option.none => s
  | some player =>
    if !player.can_attack now then s
    else
      let player := player.attack now
      let ap := get_attack_position player direction
      let players := s.players.map (fun q =>
        if q.id = pid then q.attack now
        else if q.is_alive && inAttackRange ap q then q.damaged
        else q)
      let hits := s.players.filter (fun q =>
        q.id != pid && q.is_alive && inAttackRange ap q)
      let s := { s with players := players }
      hits.foldl (fun st q =>
        st.add_chat_message (player.name ++ " hit " ++ q.name ++ "!") true now) s

/-- Method `GameServer.handle_chat_message`: silent no-op on an unknown id or
empty text; otherwise append "name: text" as a non-system chat line. -/
def GameState.handle_chat_message (s : GameState) (pid : ℕ) (text : String)
    (now : ℚ) : GameState :=
  match s.players.find? (fun p => p.id == pid) with
  | Option.none => s
  | some player =>
    if text = "" then s
    else s.add_chat_message (player.name ++ ": " ++ text) false now

/-- One server operation, as dispatched by `handle_message`, the join /
disconnect paths of `handle_client`, and the physics advance of
`broadcast_loop`. -/
inductive Op where
  | input (pid : ℕ) (action : ActionType) (direction : Direction)
  | attack (pid : ℕ) (direction : Direction) (now : ℚ)
  | chat (pid : ℕ) (text : String) (now : ℚ)
  | tick
  | join (name : String)
  | leave (pid : ℕ)

/-- The effect of one operation on the server state. -/
def GameState.step (s : GameState) : Op → GameState
  | .input pid a d => s.handle_player_input pid a d
  | .attack pid d now => s.handle_attack pid d now
  | .chat pid t now => s.handle_chat_message pid t now
  | .tick => { s with players := s.players.map (fun p => p.update_physics serverPlatforms) }
  | .join name => (s.add_player name).2
  | .leave pid => s.remove_player pid

/-- Run a whole sequence of operations. -/
def GameState.run (s : GameState) (ops : List Op) : GameState :=
  ops.foldl GameState.step s

/-! ## Helper lemmas -/

lemma add_chat_message_players (s : GameState) (t : String) (b : Bool) (n : ℚ) :
    (s.add_chat_message t b n).players = s.players := rfl

lemma foldl_add_chat_players (msgOf : Player → String) (b : Bool) (now : ℚ) :
    ∀ (l : List Player) (s : GameState),
      (l.foldl (fun st q => st.add_chat_message (msgOf q) b now) s).players
        = s.players := by
  intro l
  induction l with
  | nil => intro s; rfl
  | cons a l ih => intro s; rw [List.foldl_cons, ih, add_chat_message_players]

lemma handle_attack_rejected (s : GameState) (pid : ℕ) (d : Direction) (now : ℚ)
    (atk : Player) (hfind : s.players.find? (fun p => p.id == pid) = some atk)
    (hcan : atk.can_attack now = false) :
    s.handle_attack pid d now = s := by
  unfold GameState.handle_attack
  rw [hfind]
  simp [hcan]

lemma handle_attack_players_map (s : GameState) (pid : ℕ) (d : Direction) (now : ℚ)
    (atk : Player) (hfind : s.players.find? (fun p => p.id == pid) = some atk)
    (hcan : atk.can_attack now = true) :
    (s.handle_attack pid d now).players =
      s.players.map (fun q =>
        if q.id = pid then q.attack now
        else if q.is_alive && inAttackRange (get_attack_position (atk.attack now) d) q
        then q.damaged else q) := by
  unfold GameState.handle_attack
  rw [hfind]
  simp [hcan, foldl_add_chat_players]

lemma handle_attack_players_length (s : GameState) (pid : ℕ) (d : Direction) (now : ℚ) :
    (s.handle_attack pid d now).players.length = s.players.length := by
  rcases hfind : s.players.find? (fun p => p.id == pid) with _ | atk
  · unfold GameState.handle_attack
    rw [hfind]
  · rcases hcan : atk.can_attack now with _ | _
    · rw [handle_attack_rejected s pid d now atk hfind hcan]
    · rw [handle_attack_players_map s pid d now atk hfind hcan, List.length_map]

lemma handle_chat_message_players (s : GameState) (pid : ℕ) (t : String) (now : ℚ) :
    (s.handle_chat_message pid t now).players = s.players := by
  unfold GameState.handle_chat_message
  rcases hfind : s.players.find? (fun p => p.id == pid) with _ | pl <;> rw [hfind]
  split_ifs <;> rfl

lemma move_health (p : Player) (a : ActionType) (d : Direction) :
    (p.move a d).health = p.health := by
  cases d <;> simp only [Player.move] <;> split_ifs <;> rfl

lemma collidePlatform_health (pb pt pl pr : ℚ) (q : Player) (plat : Platform) :
    (Player.collidePlatform pb pt pl pr q plat).health = q.health := by
  simp only [Player.collidePlatform]
  split_ifs <;> rfl

lemma foldl_collide_health (pb pt pl pr : ℚ) :
    ∀ (L : List Platform) (q : Player),
      (L.foldl (Player.collidePlatform pb pt pl pr) q).health = q.health := by
  intro L
  induction L with
  | nil => intro q; rfl
  | cons a L ih => intro q; rw [List.foldl_cons, ih, collidePlatform_health]

lemma update_physics_health (p : Player) (platforms : List Platform) :
    (p.update_physics platforms).health = p.health := by
  simp only [Player.update_physics]
  split_ifs <;> simp [foldl_collide_health]

lemma step_length_le (s : GameState) (op : Op)
    (h : s.players.length ≤ MAX_PLAYERS) :
    (s.step op).players.length ≤ MAX_PLAYERS := by
  cases op with
  | input pid a d =>
    simpa [GameState.step, GameState.handle_player_input] using h
  | attack pid d now =>
    simpa [GameState.step, handle_attack_players_length] using h
  | chat pid t now =>
    simpa [GameState.step, handle_chat_message_players] using h
  | tick =>
    simpa [GameState.step] using h
  | join name =>
    simp only [GameState.step, GameState.add_player]
    split_ifs with hfull
    · exact h
    · simp only [not_le] at hfull
      simp only [List.length_append, List.length_singleton]
      omega
  | leave pid =>
    exact le_trans (List.length_filter_le _ _) h

lemma collide_static (pb pt pl pr : ℚ) (q : Player) (plat : Platform)
    (hvy : q.vy = 0) (hvx : q.vx = 0) :
    Player.collidePlatform pb pt pl pr q plat = q := by
  simp only [Player.collidePlatform]
  split_ifs <;> simp_all

lemma foldl_collide_static (pb pt pl pr : ℚ) :
    ∀ (L : List Platform) (q : Player), q.vy = 0 → q.vx = 0 →
      L.foldl (Player.collidePlatform pb pt pl pr) q = q := by
  intro L
  induction L with
  | nil => intro q _ _; rfl
  | cons a L ih =>
    intro q hvy hvx
    rw [List.foldl_cons, collide_static pb pt pl pr q a hvy hvx, ih q hvy hvx]

lemma collide_step_lands (pb pt pl pr : ℚ) (q : Player) (plat : Platform)
    (hvx : q.vx = 0) (hvy : q.vy > 0)
    (hcap : pb ≥ plat.y ∧ pl < plat.x + plat.w ∧ pr > plat.x ∧ pt < plat.y) :
    Player.collidePlatform pb pt pl pr q plat =
      { q with y := plat.y - 40, vy := 0, is_grounded := true,
               is_jumping := false, can_double_jump := true } := by
  obtain ⟨h1, h2, h3, h4⟩ := hcap
  simp only [Player.collidePlatform]
  split_ifs <;> simp_all

lemma foldl_collide_lands (pb pt pl pr b : ℚ) :
    ∀ (L : List Platform) (q : Player),
      q.vx = 0 → q.vy > 0 →
      (∀ plat ∈ L,
        pb ≥ plat.y ∧ pl < plat.x + plat.w ∧ pr > plat.x ∧ pt < plat.y →
          plat.y = b) →
      (∃ plat ∈ L,
        pb ≥ plat.y ∧ pl < plat.x + plat.w ∧ pr > plat.x ∧ pt < plat.y) →
      L.foldl (Player.collidePlatform pb pt pl pr) q =
        { q with y := b - 40, vy := 0, is_grounded := true,
                 is_jumping := false, can_double_jump := true } := by
  intro L
  induction L with
  | nil =>
    intro q _ _ _ hex
    exact absurd hex (by simp)
  | cons a L ih =>
    intro q hvx hvy huniq hex
    rw [List.foldl_cons]
    by_cases hcap : pb ≥ a.y ∧ pl < a.x + a.w ∧ pr > a.x ∧ pt < a.y
    · rw [collide_step_lands pb pt pl pr q a hvx hvy hcap]
      have hay : a.y = b := huniq a (List.mem_cons_self a L) hcap
      rw [hay]
      exact foldl_collide_static pb pt pl pr L _ rfl hvx
    · have hside1 : ¬(pr > a.x ∧ q.vx > 0 ∧ pl < a.x) := by
        rintro ⟨-, hv, -⟩
        rw [hvx] at hv
        exact lt_irrefl 0 hv
      have hside2 : ¬(pl < a.x + a.w ∧ q.vx < 0 ∧ pr > a.x + a.w) := by
        rintro ⟨-, hv, -⟩
        rw [hvx] at hv
        exact lt_irrefl 0 hv
      have hland : (if pb ≥ a.y ∧ q.vy > 0 then
          if pl < a.x + a.w ∧ pr > a.x then
            if pt < a.y then
              ({ q with y := a.y - 40, vy := 0, is_grounded := true,
                        is_jumping := false, can_double_jump := true } : Player)
            else q
          else q
        else q) = q := by
        split_ifs with hc1 hc2 hc3
        · exact absurd ⟨hc1.1, hc2.1, hc2.2, hc3⟩ hcap
        · rfl
        · rfl
        · rfl
      have hstep : Player.collidePlatform pb pt pl pr q a = q := by
        simp only [Player.collidePlatform]
        rw [hland, if_neg hside1, if_neg hside2, ite_self]
      rw [hstep]
      refine ih q hvx hvy (fun plat hm hc => huniq plat (List.mem_cons_of_mem a hm) hc) ?_
      rcases hex with ⟨plat, hm, hc⟩
      rcases List.mem_cons.mp hm with rfl | hm'
      · exact absurd hc hcap
      · exact ⟨plat, hm', hc⟩

lemma update_physics_rest_release (platforms : List Platform) (p : Player)
    (hg : p.is_grounded = true) (hvx : p.vx = 0) (hvy : p.vy = 0)
    (hx0 : 0 ≤ p.x) (hx1 : p.x ≤ ARENA_WIDTH - 40)
    (hy0 : 0 ≤ p.y) (hy1 : p.y < ARENA_HEIGHT - 40) :
    p.update_physics platforms = { p with is_grounded := false } := by
  obtain ⟨pid, pname, px, py, pvx, pvy, ph, pdir, pj, pdj, pc, pg, pla⟩ := p
  simp only at hg hvx hvy hx0 hx1 hy0 hy1
  subst hg hvx hvy
  simp only [Player.update_physics]
  norm_num
  rw [foldl_collide_static]
  rotate_left
  · rfl
  · rfl
  rw [min_eq_right hx1, max_eq_right hx0, min_eq_right (le_of_lt hy1),
      max_eq_right hy0]
  dsimp only
  have hfloor : ¬(ARENA_HEIGHT ≤ 40 ∨ ARENA_HEIGHT ≤ py + 40) := by
    push_neg
    exact ⟨by norm_num [ARENA_HEIGHT], by linarith⟩
  rw [if_neg hfloor]

lemma update_physics_release_land (platforms : List Platform) (p : Player)
    (hg : p.is_grounded = false) (hvx : p.vx = 0) (hvy : p.vy = 0)
    (hj : p.is_jumping = false) (hdj : p.can_double_jump = true)
    (hx0 : 0 ≤ p.x) (hx1 : p.x ≤ ARENA_WIDTH - 40)
    (hy0 : 0 ≤ p.y) (hy1 : p.y < ARENA_HEIGHT - 40)
    (hex : ∃ plat ∈ platforms,
        p.y = plat.y - 40 ∧ p.x < plat.x + plat.w ∧ p.x + 40 > plat.x)
    (huniq : ∀ plat ∈ platforms,
        p.y + 1/2 + 40 ≥ plat.y ∧ p.x < plat.x + plat.w ∧ p.x + 40 > plat.x ∧
          p.y + 1/2 < plat.y → plat.y = p.y + 40) :
    p.update_physics platforms = { p with is_grounded := true } := by
  obtain ⟨pid, pname, px, py, pvx, pvy, ph, pdir, pj, pdj, pc, pg, pla⟩ := p
  simp only at hg hvx hvy hj hdj hx0 hx1 hy0 hy1 hex huniq
  subst hg hvx hvy hj hdj
  simp only [Player.update_physics]
  norm_num
  rw [foldl_collide_lands _ _ _ _ (py + 40)]
  · norm_num
    rw [min_eq_right hx1, max_eq_right hx0, min_eq_right (le_of_lt hy1),
        max_eq_right hy0]
    have hfloor : ¬(ARENA_HEIGHT ≤ 40 ∨ ARENA_HEIGHT ≤ py + 40) := by
      push_neg
      exact ⟨by norm_num [ARENA_HEIGHT], by linarith⟩
    rw [if_neg hfloor]
  · rfl
  · norm_num
  · exact huniq
  · rcases hex with ⟨plat, hm, h1, h2, h3⟩
    exact ⟨plat, hm, by linarith, h2, h3, by linarith⟩

/-! ## Theorems -/

/-- C10: decoding inverts encoding: for every message built from a valid
`MessageType` and (JSON-serializable) data, `Message.from_json` of
`Message.to_json` succeeds and returns a message with the same type and
the same data. -/
theorem message_roundtrip (m : Message) :
    Message.from_json (some m.to_json) = Except.ok m := by
  obtain ⟨t, d⟩ := m
  cases t <;> rfl

/-- C8 counterexample: the line `{"type": "connect"}` is valid JSON, has a
`type` field and its value is a recognized message kind, yet
`Message.from_json` raises (the `obj["data"]` lookup fails), contradicting
the claim that decoding fails only on invalid JSON or an
unrecognized/missing type. -/
theorem decode_fails_on_missing_data_field :
    decodeFails (some (Json.obj [("type", Json.str "connect")])) = true ∧
    recognizedType (some (Json.obj [("type", Json.str "connect")]))
      = some MessageType.connect := by
  exact ⟨rfl, rfl⟩

/-- C8 (amended): `Message.from_json` raises exactly when the line is not
valid JSON, lacks a recognized `type` (no `type` field, a non-string
`type`, or an unenumerated value), or lacks a `data` field; and a failing
line never affects the decoding of the other lines in the buffer. -/
theorem decode_error_characterization :
    (∀ o : Option Json,
        decodeFails o = true ↔
          (recognizedType o = Option.none ∨ hasDataField o = false)) ∧
    (∀ (l : Option Json) (rest : List (Option Json)),
        processLines (l :: rest) = processLines [l] ++ processLines rest) := by
  constructor
  · intro o
    cases o with
    | none => simp [decodeFails, Message.from_json, recognizedType]
    | some j =>
      rcases htv : j.get "type" with _ | tv
      · simp [decodeFails, Message.from_json, recognizedType, hasDataField, htv]
      · cases tv <;>
          simp only [decodeFails, Message.from_json, recognizedType, hasDataField, htv] <;>
          try simp
        rename_i s
        rcases hof : MessageType.ofValue s with _ | t <;> simp only [hof] <;> try simp
        rcases hd : j.get "data" with _ | d <;> simp [hd]
  · intro l rest
    rcases h : (Message.from_json l).toOption with _ | m <;>
      simp [processLines, List.filterMap_cons, h]

set_option maxRecDepth 8000 in
/-- C9 counterexample: after 51 appends the chat history holds 51 entries,
strictly more than the configured retention cap `MAX_CHAT_HISTORY = 50`
(`add_chat_message` trims at a hard-coded 100, not at the config value). -/
theorem chat_history_exceeds_config_cap :
    ((List.range 51).foldl
        (fun s _ => GameState.add_chat_message s "m" false 0)
        {}).chat_history.length = 51 ∧
    MAX_CHAT_HISTORY = 50 := by
  exact ⟨by rfl, rfl⟩

/-- C9 (amended): the retention cap actually enforced is the hard-coded
100 of `add_chat_message` (config's `MAX_CHAT_HISTORY = 50` is unused by
the server): after every append the history holds at most 100 messages,
the oldest entries are discarded first (the result is a suffix of the
appended history), and every broadcast snapshot carries at most the fixed
10-message tail, which is smaller than that cap. -/
theorem chat_history_bounded :
    ∀ (s : GameState) (text : String) (is_sys : Bool) (now : ℚ),
      (s.add_chat_message text is_sys now).chat_history.length ≤ 100 ∧
      (s.add_chat_message text is_sys now).chat_history <:+
        s.chat_history ++ [⟨text, is_sys, now⟩] ∧
      (chatTail (s.add_chat_message text is_sys now).chat_history).length ≤ 10 ∧
      10 < 100 := by
  intro s text is_sys now
  simp only [GameState.add_chat_message, chatTail]
  split_ifs with h
  · refine ⟨?_, List.drop_suffix _ _, ?_, by norm_num⟩
    · simp only [List.length_drop]
      omega
    · simp only [List.length_drop]
      omega
  · refine ⟨?_, List.suffix_refl _, ?_, by norm_num⟩
    · simp only [not_lt] at h
      simpa using h
    · simp only [List.length_drop]
      omega

/-- C2: after every physics step — whatever the player state produced by
any earlier sequence of move inputs and physics steps, and whatever the
platform list — the player's position lies in
`[0, ARENA_WIDTH − 40] × [0, ARENA_HEIGHT − 40]` (player width = height =
40): `update_physics` ends by clamping both axes into the arena. -/
theorem position_clamped_to_arena :
    ∀ (p : Player) (platforms : List Platform),
      0 ≤ (p.update_physics platforms).x ∧
      (p.update_physics platforms).x ≤ ARENA_WIDTH - 40 ∧
      0 ≤ (p.update_physics platforms).y ∧
      (p.update_physics platforms).y ≤ ARENA_HEIGHT - 40 := by
  intro p platforms
  have hW : (0 : ℚ) ≤ ARENA_WIDTH - 40 := by norm_num [ARENA_WIDTH]
  have hH : (0 : ℚ) ≤ ARENA_HEIGHT - 40 := by norm_num [ARENA_HEIGHT]
  simp only [Player.update_physics]
  split_ifs <;>
    first
      | exact ⟨le_max_left _ _, max_le hW (min_le_left _ _), hH, le_refl _⟩
      | exact ⟨le_max_left _ _, max_le hW (min_le_left _ _), le_max_left _ _,
               max_le hH (min_le_left _ _)⟩

/-- C3: `add_player` rejects when the registry already holds
`MAX_PLAYERS` entries — returning no id and leaving the registry and the
next-id counter untouched — and consequently no sequence of operations can
push the registry beyond `MAX_PLAYERS` players. -/
theorem add_player_capacity :
    (∀ (s : GameState) (name : String),
        s.players.length ≥ MAX_PLAYERS → s.add_player name = (Option.none, s)) ∧
    (∀ (s : GameState) (ops : List Op),
        s.players.length ≤ MAX_PLAYERS →
          (s.run ops).players.length ≤ MAX_PLAYERS) := by
  constructor
  · intro s name h
    unfold GameState.add_player
    rw [if_pos h]
  · intro s ops
    induction ops generalizing s with
    | nil => intro h; exact h
    | cons op ops ih =>
      intro h
      show ((s.step op).run ops).players.length ≤ MAX_PLAYERS
      exact ih _ (step_length_le s op h)

/-- C3 witness: a full four-player registry rejects a fifth registration
unchanged, and joining five times from empty leaves at most
`MAX_PLAYERS` players. -/
theorem add_player_capacity_witness :
    ({ players := [{ id := 1, name := "a", x := 0, y := 0 },
                   { id := 2, name := "b", x := 0, y := 0 },
                   { id := 3, name := "c", x := 0, y := 0 },
                   { id := 4, name := "d", x := 0, y := 0 }],
       next_player_id := 5 } : GameState).add_player "e" =
      (Option.none,
       { players := [{ id := 1, name := "a", x := 0, y := 0 },
                     { id := 2, name := "b", x := 0, y := 0 },
                     { id := 3, name := "c", x := 0, y := 0 },
                     { id := 4, name := "d", x := 0, y := 0 }],
         next_player_id := 5 }) ∧
    (({} : GameState).run
        [Op.join "a", Op.join "b", Op.join "c", Op.join "d",
         Op.join "e"]).players.length ≤ MAX_PLAYERS := by
  constructor
  · exact add_player_capacity.1 _ "e" (by norm_num [MAX_PLAYERS])
  · exact add_player_capacity.2 {} _ (by norm_num [MAX_PLAYERS])

/-- C4: an attack while `now − attacker.last_attack_time <
ATTACK_COOLDOWN` is rejected and the whole state — every player's health
and the attacker's `last_attack_time` included — is unchanged; with
`now − last_attack_time ≥ ATTACK_COOLDOWN` it is accepted and the
attacker's registry entry gets `last_attack_time = now`. -/
theorem attack_cooldown_gate :
    ∀ (s : GameState) (pid : ℕ) (d : Direction) (now : ℚ) (atk : Player),
      s.players.find? (fun p => p.id == pid) = some atk →
      ((now - atk.last_attack_time < PLAYER_ATTACK_COOLDOWN →
          s.handle_attack pid d now = s) ∧
       (PLAYER_ATTACK_COOLDOWN ≤ now - atk.last_attack_time →
          ∀ q ∈ s.players, q.id = pid →
            q.attack now ∈ (s.handle_attack pid d now).players)) := by
  intro s pid d now atk hfind
  constructor
  · intro hlt
    have hcan : atk.can_attack now = false := by
      simp only [Player.can_attack, decide_eq_false_iff_not, not_le]
      exact hlt
    exact handle_attack_rejected s pid d now atk hfind hcan
  · intro hge q hq hqid
    have hcan : atk.can_attack now = true := by
      simp only [Player.can_attack, ge_iff_le, decide_eq_true_eq]
      exact hge
    rw [handle_attack_players_map s pid d now atk hfind hcan]
    exact List.mem_map.mpr ⟨q, hq, by simp [hqid]⟩

/-- C4 witness: with cooldown 0.3s, an attack at t = 0.1 after an attack
stamped at t = 0 is rejected with no state change, and at t = 1 it is
accepted, stamping the attacker's `last_attack_time`. -/
theorem attack_cooldown_gate_witness :
    ({ players := [{ id := 1, name := "Ann", x := 100, y := 100 },
                   { id := 2, name := "Bo", x := 150, y := 110 }] } :
        GameState).handle_attack 1 Direction.right (1/10) =
      { players := [{ id := 1, name := "Ann", x := 100, y := 100 },
                    { id := 2, name := "Bo", x := 150, y := 110 }] } ∧
    Player.attack { id := 1, name := "Ann", x := 100, y := 100 } 1 ∈
      (({ players := [{ id := 1, name := "Ann", x := 100, y := 100 },
                      { id := 2, name := "Bo", x := 150, y := 110 }] } :
          GameState).handle_attack 1 Direction.right 1).players := by
  constructor
  · exact (attack_cooldown_gate _ 1 Direction.right (1/10)
      { id := 1, name := "Ann", x := 100, y := 100 } (by rfl)).1
      (by norm_num [PLAYER_ATTACK_COOLDOWN])
  · exact (attack_cooldown_gate _ 1 Direction.right 1
      { id := 1, name := "Ann", x := 100, y := 100 } (by rfl)).2
      (by norm_num [PLAYER_ATTACK_COOLDOWN])
      _ (by simp) rfl

/-- C6 counterexample: in the exact state the claim designates for the
double jump — airborne, `is_jumping = true`, `can_double_jump = true` — an
up move-input applies NO impulse (`vy` is unchanged, not −13) and does not
consume the double jump: the source's second-jump branch requires
`not self.is_jumping`. -/
theorem double_jump_requires_not_jumping :
    (Player.move { id := 1, name := "A", x := 0, y := 0, vy := 2,
                   is_grounded := false, is_jumping := true,
                   can_double_jump := true } ActionType.move Direction.up).vy = 2 ∧
    (Player.move { id := 1, name := "A", x := 0, y := 0, vy := 2,
                   is_grounded := false, is_jumping := true,
                   can_double_jump := true } ActionType.move
        Direction.up).can_double_jump = true := by
  exact ⟨rfl, rfl⟩

/-- C6 (amended): an up input while grounded applies the upward impulse
(vy = −13), sets jumping and grants the double jump; the second airborne
impulse fires exactly in the state airborne + `is_jumping = false` +
`can_double_jump = true` (reached by walking off a ledge, not by a
grounded jump), consuming the double jump; after a grounded jump,
`is_jumping` stays true until landing, so repeated up inputs while
airborne apply no impulse at all — they change only the facing — and
likewise when the double jump has been consumed. -/
theorem jump_state_machine :
    ∀ p : Player,
      (p.is_grounded = true →
        p.move ActionType.move Direction.up =
          { p with direction := Direction.up, vy := -13,
                   is_jumping := true, can_double_jump := true }) ∧
      (p.is_grounded = false → p.is_jumping = false → p.can_double_jump = true →
        p.move ActionType.move Direction.up =
          { p with direction := Direction.up, vy := -13,
                   is_jumping := true, can_double_jump := false }) ∧
      (p.is_grounded = false → p.is_jumping = true →
        p.move ActionType.move Direction.up = { p with direction := Direction.up }) ∧
      (p.is_grounded = false → p.can_double_jump = false →
        p.move ActionType.move Direction.up = { p with direction := Direction.up }) := by
  intro p
  refine ⟨fun hg => ?_, fun hg hj hd => ?_, fun hg hj => ?_, fun hg hd => ?_⟩
  · simp [Player.move, hg]
  · simp [Player.move, hg, hj, hd]
  · simp [Player.move, hg, hj]
  · simp [Player.move, hg, hd]

/-- C6 witness: a grounded up input jumps; an airborne up input with
jumping cleared and the double jump available applies the second impulse
and consumes it. -/
theorem jump_state_machine_witness :
    Player.move { id := 1, name := "W", x := 0, y := 0, is_grounded := true }
        ActionType.move Direction.up =
      { id := 1, name := "W", x := 0, y := 0, is_grounded := true,
        direction := Direction.up, vy := -13, is_jumping := true,
        can_double_jump := true } ∧
    Player.move { id := 1, name := "W", x := 0, y := 0, is_grounded := false,
                  is_jumping := false, can_double_jump := true }
        ActionType.move Direction.up =
      { id := 1, name := "W", x := 0, y := 0, is_grounded := false,
        direction := Direction.up, vy := -13, is_jumping := true,
        can_double_jump := false } := by
  constructor
  · exact (jump_state_machine _).1 rfl
  · exact (jump_state_machine _).2.1 rfl rfl rfl

/-- C5 counterexample: for an attacker whose last facing is LEFT, an
attack with direction NONE uses the fixed centre offset `(x+20, y+20)` —
`(120, 120)` here — and not the offset in front of the last facing, which
would be `(x−30, y+20) = (70, 120)`: `get_attack_position` never reads
`player.direction`. -/
theorem attack_none_direction_ignores_facing :
    get_attack_position { id := 1, name := "A", x := 100, y := 100,
                          direction := Direction.left } Direction.none = (120, 120) ∧
    get_attack_position { id := 1, name := "A", x := 100, y := 100,
                          direction := Direction.left } Direction.left = (70, 120) ∧
    ((120 : ℚ), (120 : ℚ)) ≠ ((70 : ℚ), (120 : ℚ)) := by
  refine ⟨?_, ?_, ?_⟩
  · simp only [get_attack_position, Prod.mk.injEq]
    norm_num
  · simp only [get_attack_position, Prod.mk.injEq]
    norm_num
  · simp only [ne_eq, Prod.mk.injEq]
    norm_num

/-- C5 (amended): an accepted attack strikes from the attacker's position
plus a fixed forward offset along the given direction, with direction NONE
taking the fixed centre offset `(x+20, y+20)` independent of the
attacker's last facing; exactly the other players with health > 0 within
`ATTACK_RANGE` (Euclidean) of the attack point are hit, each losing
`ATTACK_DAMAGE` health floored at zero, with no self-hit and no hit on
zero-health players. -/
theorem attack_resolution :
    ∀ (s : GameState) (pid : ℕ) (d : Direction) (now : ℚ) (atk : Player),
      s.players.find? (fun p => p.id == pid) = some atk →
      atk.can_attack now = true →
      ((∀ p : Player,
          get_attack_position p Direction.up = (p.x + 20, p.y - 30) ∧
          get_attack_position p Direction.down = (p.x + 20, p.y + 70) ∧
          get_attack_position p Direction.left = (p.x - 30, p.y + 20) ∧
          get_attack_position p Direction.right = (p.x + 70, p.y + 20) ∧
          get_attack_position p Direction.none = (p.x + 20, p.y + 20)) ∧
       (s.handle_attack pid d now).players =
         s.players.map (fun q =>
           if q.id = pid then q.attack now
           else if 0 < q.health ∧
               inAttackRange (get_attack_position (atk.attack now) d) q = true then
             q.damaged
           else q) ∧
       (∀ q : Player, q.damaged.health = max 0 (q.health - PLAYER_ATTACK_DAMAGE))) := by
  intro s pid d now atk hfind hcan
  refine ⟨fun p => ⟨rfl, rfl, rfl, rfl, rfl⟩, ?_, fun q => rfl⟩
  rw [handle_attack_players_map s pid d now atk hfind hcan]
  apply List.map_congr_left
  intro q _
  by_cases h1 : q.id = pid
  · simp [h1]
  · simp [h1, Player.is_alive, Bool.and_eq_true, decide_eq_true_eq]

/-- C5 witness: Ann (id 1) attacks right at t = 1 with Bo (id 2) standing
in range: the registry maps to Ann stamped with the attack time and Bo
damaged, exactly as the hit characterisation states. -/
theorem attack_resolution_witness :
    (({ players := [{ id := 1, name := "Ann", x := 100, y := 100 },
                    { id := 2, name := "Bo", x := 150, y := 110 }] } :
        GameState).handle_attack 1 Direction.right 1).players =
      [{ id := 1, name := "Ann", x := 100, y := 100 },
       { id := 2, name := "Bo", x := 150, y := 110 }].map (fun q =>
        if q.id = 1 then q.attack 1
        else if 0 < q.health ∧
            inAttackRange
              (get_attack_position
                (Player.attack { id := 1, name := "Ann", x := 100, y := 100 } 1)
                Direction.right) q = true then
          q.damaged
        else q) := by
  exact (attack_resolution _ 1 Direction.right 1
      { id := 1, name := "Ann", x := 100, y := 100 } (by rfl)
      (by simp only [Player.can_attack, decide_eq_true_eq, PLAYER_ATTACK_COOLDOWN]
          norm_num)).2.1

/-- The health invariant of the spec: every registered player's health
lies in `[0, PLAYER_MAX_HEALTH]`. -/
def healthInv (s : GameState) : Prop :=
  ∀ p ∈ s.players, 0 ≤ p.health ∧ p.health ≤ PLAYER_MAX_HEALTH

lemma step_healthInv (s : GameState) (op : Op) (h : healthInv s) :
    healthInv (s.step op) := by
  cases op with
  | input pid a d =>
    intro q hq
    simp only [GameState.step, GameState.handle_player_input, List.mem_map] at hq
    obtain ⟨p, hp, rfl⟩ := hq
    have hph := h p hp
    split_ifs <;> simpa [move_health] using hph
  | attack pid d now =>
    intro q hq
    simp only [GameState.step] at hq
    rcases hfind : s.players.find? (fun p => p.id == pid) with _ | atk
    · rw [show s.handle_attack pid d now = s by
        unfold GameState.handle_attack; rw [hfind]] at hq
      exact h q hq
    · rcases hcan : atk.can_attack now with _ | _
      · rw [handle_attack_rejected s pid d now atk hfind hcan] at hq
        exact h q hq
      · rw [handle_attack_players_map s pid d now atk hfind hcan] at hq
        rw [List.mem_map] at hq
        obtain ⟨p, hp, rfl⟩ := hq
        have hph := h p hp
        split_ifs
        · exact hph
        · refine ⟨le_max_left _ _, max_le (by norm_num [PLAYER_MAX_HEALTH]) ?_⟩
          have hd : (0 : ℤ) ≤ PLAYER_ATTACK_DAMAGE := by
            norm_num [PLAYER_ATTACK_DAMAGE]
          have := hph.2
          omega
        · exact hph
  | chat pid t now =>
    intro q hq
    simp only [GameState.step] at hq
    rw [handle_chat_message_players] at hq
    exact h q hq
  | tick =>
    intro q hq
    simp only [GameState.step, List.mem_map] at hq
    obtain ⟨p, hp, rfl⟩ := hq
    simpa [update_physics_health] using h p hp
  | join name =>
    intro q hq
    simp only [GameState.step, GameState.add_player] at hq
    split_ifs at hq with hfull
    · exact h q hq
    · simp only [List.mem_append, List.mem_singleton] at hq
      rcases hq with hq | rfl
      · exact h q hq
      · exact ⟨by norm_num [PLAYER_MAX_HEALTH], le_refl _⟩
  | leave pid =>
    intro q hq
    exact h q (List.mem_of_mem_filter hq)

/-- C1: along every sequence of operations (inputs, attacks, chat,
physics ticks, joins, leaves) every player's health stays in
`[0, PLAYER_MAX_HEALTH]`; and the damage application of `handle_attack`
sets a health that would go below zero to exactly zero. -/
theorem health_always_in_bounds :
    (∀ (s : GameState) (ops : List Op),
        healthInv s → healthInv (s.run ops)) ∧
    (∀ q : Player, q.health - PLAYER_ATTACK_DAMAGE < 0 → q.damaged.health = 0) := by
  constructor
  · intro s ops
    induction ops generalizing s with
    | nil => exact id
    | cons op ops ih =>
      intro h
      show healthInv ((s.step op).run ops)
      exact ih _ (step_healthInv s op h)
  · intro q hq
    simp only [Player.damaged]
    exact max_eq_left (le_of_lt hq)

/-- C1 witness: from an empty server, joining two players and resolving
an attack keeps every health in bounds; a defender at 5 health is floored
to exactly 0 by one hit's damage application. -/
theorem health_always_in_bounds_witness :
    healthInv (({} : GameState).run
      [Op.join "Ann", Op.join "Bo", Op.attack 1 Direction.right 1]) ∧
    (Player.damaged { id := 1, name := "W", x := 0, y := 0, health := 5 }).health
      = 0 := by
  constructor
  · exact health_always_in_bounds.1 {} _
      (by intro p hp; exact absurd hp (List.not_mem_nil p))
  · exact health_always_in_bounds.2 _ (by norm_num [PLAYER_ATTACK_DAMAGE])

/-- C7 counterexample: a player at rest on top of the ground platform
(grounded, zero velocity, `y` = platform top − 40) is NOT left grounded by
the next physics step: groundedness is recomputed each tick and the
landing test requires `vy > 0`, which fails at `vy = 0`, so the flag is
cleared. -/
theorem resting_player_loses_grounded_flag :
    (Player.update_physics
        { id := 1, name := "A", x := 100, y := 480, is_grounded := true,
          is_jumping := false, can_double_jump := true }
        serverPlatforms).is_grounded = false := by
  rw [update_physics_rest_release serverPlatforms _ rfl rfl rfl (by norm_num)
      (by norm_num [ARENA_WIDTH]) (by norm_num) (by norm_num [ARENA_HEIGHT])]

/-- C7 (amended): a player at rest on top of a platform keeps its exact
position and zero velocities at every physics step; only the grounded
flag jitters, alternating false (odd steps — the `vy > 0` landing test
fails at rest) and true (even steps — the player falls half a pixel
mid-step and re-lands within the same step): the n-th iterate is the rest
state itself for even n and the rest state with `is_grounded := false`
for odd n. -/
theorem resting_player_no_position_jitter :
    ∀ (platforms : List Platform) (p : Player),
      p.is_grounded = true → p.vx = 0 → p.vy = 0 →
      p.is_jumping = false → p.can_double_jump = true →
      0 ≤ p.x → p.x ≤ ARENA_WIDTH - 40 → 0 ≤ p.y → p.y < ARENA_HEIGHT - 40 →
      (∃ plat ∈ platforms,
          p.y = plat.y - 40 ∧ p.x < plat.x + plat.w ∧ p.x + 40 > plat.x) →
      (∀ plat ∈ platforms,
          p.y + 1/2 + 40 ≥ plat.y ∧ p.x < plat.x + plat.w ∧ p.x + 40 > plat.x ∧
            p.y + 1/2 < plat.y → plat.y = p.y + 40) →
      ∀ n : ℕ,
        (fun q : Player => q.update_physics platforms)^[n] p =
          if n % 2 = 0 then p else { p with is_grounded := false } := by
  intro platforms p hg hvx hvy hj hdj hx0 hx1 hy0 hy1 hex huniq
  have hA : p.update_physics platforms = { p with is_grounded := false } :=
    update_physics_rest_release platforms p hg hvx hvy hx0 hx1 hy0 hy1
  have hB : ({ p with is_grounded := false } : Player).update_physics platforms
      = p := by
    have h := update_physics_release_land platforms { p with is_grounded := false }
        rfl hvx hvy hj hdj hx0 hx1 hy0 hy1 hex huniq
    rw [h]
    obtain ⟨pid, pname, px, py, pvx, pvy, ph, pdir, pj, pdj, pc, pg, pla⟩ := p
    simp only at hg
    subst hg
    rfl
  intro n
  induction n with
  | zero => rfl
  | succ n ih =>
    rw [Function.iterate_succ_apply', ih]
    by_cases h : n % 2 = 0
    · rw [if_pos h, if_neg (show ¬((n + 1) % 2 = 0) by omega)]
      exact hA
    · rw [if_neg h, if_pos (show (n + 1) % 2 = 0 by omega)]
      exact hB

/-- C7 witness: the concrete rest state on the ground platform returns to
itself after two physics steps. -/
theorem resting_player_no_position_jitter_witness :
    (fun q : Player => q.update_physics serverPlatforms)^[2]
        { id := 1, name := "W", x := 100, y := 480, is_grounded := true,
          is_jumping := false, can_double_jump := true } =
      { id := 1, name := "W", x := 100, y := 480, is_grounded := true,
        is_jumping := false, can_double_jump := true } := by
  have h := resting_player_no_position_jitter serverPlatforms
      { id := 1, name := "W", x := 100, y := 480, is_grounded := true,
        is_jumping := false, can_double_jump := true }
      rfl rfl rfl rfl rfl (by norm_num) (by norm_num [ARENA_WIDTH])
      (by norm_num) (by norm_num [ARENA_HEIGHT])
      ⟨⟨80, ARENA_HEIGHT - 80, ARENA_WIDTH - 160, 20⟩,
        by simp [serverPlatforms],
        by norm_num [ARENA_HEIGHT],
        by norm_num [ARENA_WIDTH],
        by norm_num⟩
      (by
        intro plat hm
        simp only [serverPlatforms, List.mem_cons, List.not_mem_nil, or_false] at hm
        rcases hm with rfl | rfl | rfl | rfl <;> intro hcond
        · norm_num [ARENA_HEIGHT]
        · exfalso
          norm_num [ARENA_HEIGHT, ARENA_WIDTH] at hcond
        · exfalso
          norm_num [ARENA_HEIGHT, ARENA_WIDTH] at hcond
        · exfalso
          norm_num [ARENA_HEIGHT, ARENA_WIDTH] at hcond)
      2
  simpa using h

end LanLords
